/-
Verification development for the colossus-cli model-serving runtime.

Shallow embedding of the core components named by the specification:
the model-format decoder/validator (package `model`), the simulated and
llama.cpp inference engines (package `inference`), the sampling wrapper
(package `llama`), and the chat prompt formatters.  Go strings are
modelled as Lean `String` (sequences of runes) except where the source
manipulates raw bytes, in which case byte lists (`List Nat`, each entry
a byte value) are used.  The Go `(T, error)` return shape is modelled as
`Except String T`; a `.ok` value corresponds to a `nil` Go error.
-/
import Mathlib

namespace Colossus

/-! ## String helpers shared by several components -/

/-- Whether `sub` is a prefix of `s` (character lists). -/
def listStartsWith : List Char → List Char → Bool
  | _, [] => true
  | [], _ :: _ => false
  | a :: as, b :: bs => a = b && listStartsWith as bs

/-- Whether `sub` occurs contiguously inside `s` (character lists). -/
def listHasInfix : List Char → List Char → Bool
  | [], sub => decide (sub = [])
  | c :: rest, sub => listStartsWith (c :: rest) sub || listHasInfix rest sub

/-- Go `strings.Contains s sub`: substring occurrence test on the rune
data. -/
def strContains (s sub : String) : Bool :=
  listHasInfix s.data sub.data

/-- Go `strings.ToLower`, restricted to the ASCII case mapping the source
relies on (all compared literals are ASCII). -/
def strToLower (s : String) : String :=
  String.mk (s.data.map Char.toLower)

/-! ## `splitIntoWords` (internal/inference/engine.go)

The Go loop ranges over the runes of `text`, accumulating `current` and
flushing it to `words` after every space or newline; a final non-empty
`current` is flushed after the loop. -/

/-- The flush condition of the loop body: `char == ' ' || char == '\n'`. -/
def isWordBreak (c : Char) : Bool :=
  c = ' ' || c = '\n'

/-- One pass of the Go loop with pending accumulator `current`. -/
def splitWordsAux (current : List Char) : List Char → List (List Char)
  | [] => if current = [] then [] else [current]
  | c :: cs =>
    let current' := current ++ [c]
    if isWordBreak c then
      if current' = [] then splitWordsAux current' cs
      else current' :: splitWordsAux [] cs
    else splitWordsAux current' cs

/-- Go `splitIntoWords` from internal/inference/engine.go. -/
def splitIntoWords (text : String) : List String :=
  (splitWordsAux [] text.data).map String.mk

/-! ## FormatDecoder (package `model`, file part_001)

Files are byte lists (`List Nat`, one entry per byte, values 0..255).
Sequential `binary.Read` calls are modelled by a cursor that consumes a
prefix of the remaining bytes.  Error strings reproduce the `fmt.Errorf` texts of the source; low-level read failures are reported as "EOF" (the
exact text of the Go io EOF errors is never observed by any claim).
-/

namespace model

/-- Little-endian value of a byte list (least significant byte first). -/
def leVal : List Nat → Nat
  | [] => 0
  | b :: bs => b + 256 * leVal bs

/-- Go `binary.Read` of a `k`-byte little-endian unsigned integer: succeeds
only when `k` bytes remain, consuming them. -/
def readLE (k : Nat) (bs : List Nat) : Option (Nat × List Nat) :=
  if k ≤ bs.length then some (leVal (bs.take k), bs.drop k) else none

/-- Go `binary.Read` into a `k`-byte scalar whose error the source ignores:
on short input the Go variable keeps its zero value and the remaining
bytes are consumed. -/
def readScalarLax (k : Nat) (bs : List Nat) : Nat × List Nat :=
  (if k ≤ bs.length then leVal (bs.take k) else 0, bs.drop k)

/-- Twos-complement reinterpretation of a `w`-bit unsigned value, as Go
does when decoding into a signed integer type. -/
def toSigned (w : Nat) (v : Nat) : Int :=
  if v < 2 ^ (w - 1) then (v : Int) else (v : Int) - 2 ^ w

/-- Go `int64` wrap-around for arithmetic results. -/
def wrap64 (x : Int) : Int :=
  (x + 2 ^ 63) % 2 ^ 64 - 2 ^ 63

/-- UTF-8 bytes of a Lean string literal; all literals compared by the
source are ASCII, where code points and bytes coincide. -/
def strBytes (s : String) : List Nat :=
  s.data.map Char.toNat

/-- Byte list rendered as a string for `%s` interpolation (exact for the
ASCII data exercised here). -/
def bytesAsString (bs : List Nat) : String :=
  String.mk (bs.map Char.ofNat)

/-- ASCII case of `strings.ToLower` on raw bytes (the architecture names
in the lookup table are ASCII). -/
def toLowerBytes (bs : List Nat) : List Nat :=
  bs.map (fun b => if 65 ≤ b ∧ b ≤ 90 then b + 32 else b)

/-- Go `ModelFormat` constants from part_001. -/
inductive ModelFormat
  | unknown
  | gguf
  | ggml
  | safeTensors
  | pyTorch
  | onnx
deriving DecidableEq

/-- Go `ModelInfo` from part_001 (`Architecture` is kept as raw bytes, the
representation Go strings decoded from the file actually have). -/
structure ModelInfo where
  format : ModelFormat
  version : String
  architecture : List Nat
  parameters : Int
  contextSize : Int
  vocabSize : Int
  valid : Bool
  errorMsg : String
deriving DecidableEq

/-- Go `GGUFMagic = 0x46554747`. -/
def GGUFMagic : Nat := 0x46554747

/-- Go `GGMLMagic = 0x67676d6c`. -/
def GGMLMagic : Nat := 0x67676d6c

/-- GGUF metadata value type constants from part_001. -/
def GGUFTypeUint8 : Nat := 0
def GGUFTypeInt8 : Nat := 1
def GGUFTypeUint16 : Nat := 2
def GGUFTypeInt16 : Nat := 3
def GGUFTypeUint32 : Nat := 4
def GGUFTypeInt32 : Nat := 5
def GGUFTypeFloat32 : Nat := 6
def GGUFTypeBool : Nat := 7
def GGUFTypeString : Nat := 8
def GGUFTypeArray : Nat := 9
def GGUFTypeUint64 : Nat := 10
def GGUFTypeInt64 : Nat := 11
def GGUFTypeFloat64 : Nat := 12

/-- A decoded GGUF metadata value.  `f32` keeps the raw 4-byte value:
the source stores float32 entries in the map but never reads them back,
so no numeric interpretation is needed. -/
inductive GGUFValue
  | u8 (v : Nat)
  | i8 (v : Int)
  | u32 (v : Nat)
  | i32 (v : Int)
  | u64 (v : Nat)
  | i64 (v : Int)
  | f32 (bits : Nat)
  | boolean (v : Bool)
  | str (bytes : List Nat)
deriving DecidableEq

/-- Go `readGGUFString`: an 8-byte length, capped at 1 MiB, then that many
raw bytes. -/
def readGGUFString (bs : List Nat) : Except String (List Nat × List Nat) :=
  match readLE 8 bs with
  | none => .error "EOF"
  | some (len, rest) =>
    if len > 1024 * 1024 then
      .error ("string too long: " ++ toString len ++ " bytes")
    else if len ≤ rest.length then
      .ok (rest.take len, rest.drop len)
    else
      .error "EOF"

/-- Go `readGGUFValue`: a 4-byte type tag followed by the payload.  The
scalar branches ignore `binary.Read` errors exactly as the source does;
any tag without a `case` (including uint16, int16, array and float64)
falls to the `default` branch and fails. -/
def readGGUFValue (bs : List Nat) : Except String (GGUFValue × List Nat) :=
  match readLE 4 bs with
  | none => .error "EOF"
  | some (t, rest) =>
    if t = GGUFTypeUint8 then
      let (v, r) := readScalarLax 1 rest
      .ok (.u8 v, r)
    else if t = GGUFTypeInt8 then
      let (v, r) := readScalarLax 1 rest
      .ok (.i8 (toSigned 8 v), r)
    else if t = GGUFTypeUint32 then
      let (v, r) := readScalarLax 4 rest
      .ok (.u32 v, r)
    else if t = GGUFTypeInt32 then
      let (v, r) := readScalarLax 4 rest
      .ok (.i32 (toSigned 32 v), r)
    else if t = GGUFTypeUint64 then
      let (v, r) := readScalarLax 8 rest
      .ok (.u64 v, r)
    else if t = GGUFTypeInt64 then
      let (v, r) := readScalarLax 8 rest
      .ok (.i64 (toSigned 64 v), r)
    else if t = GGUFTypeFloat32 then
      let (v, r) := readScalarLax 4 rest
      .ok (.f32 v, r)
    else if t = GGUFTypeString then
      match readGGUFString rest with
      | .error e => .error e
      | .ok (s, r) => .ok (.str s, r)
    else if t = GGUFTypeBool then
      let (v, r) := readScalarLax 1 rest
      .ok (.boolean (v ≠ 0), r)
    else
      .error ("unsupported value type: " ++ toString t)

/-- Go `parseGGUFMetadata`: `kvCount` iterations of key + value, collecting
the pairs in read order. -/
def parseGGUFMetadata : Nat → List Nat → List (List Nat × GGUFValue) →
    Except String (List (List Nat × GGUFValue) × List Nat)
  | 0, bs, acc => .ok (acc, bs)
  | n + 1, bs, acc =>
    match readGGUFString bs with
    | .error e => .error ("failed to read metadata key: " ++ e)
    | .ok (key, bs1) =>
      match readGGUFValue bs1 with
      | .error e =>
        .error ("failed to read metadata value for key " ++ bytesAsString key ++ ": " ++ e)
      | .ok (v, bs2) => parseGGUFMetadata n bs2 (acc ++ [(key, v)])

/-- Go map lookup over the collected entries (later writes win). -/
def lookupMeta (m : List (List Nat × GGUFValue)) (k : List Nat) : Option GGUFValue :=
  (m.reverse.find? (fun p => decide (p.1 = k))).map (fun p => p.2)

/-- Go `estimateParametersFromTensors`: per-architecture scaling constants,
with Go `int64` wrap-around on the product. -/
def estimateParametersFromTensors (tensorCount : Int) (architecture : List Nat) : Int :=
  if toLowerBytes architecture = strBytes "llama" then
    wrap64 (tensorCount * 150000000)
  else if toLowerBytes architecture = strBytes "gpt2" then
    wrap64 (tensorCount * 100000000)
  else if toLowerBytes architecture = strBytes "bert" then
    wrap64 (tensorCount * 80000000)
  else
    wrap64 (tensorCount * 100000000)

/-- The `&ModelInfo{Format: f, Valid: true}` literal (all other fields
at Go zero values). -/
def baseInfo (f : ModelFormat) : ModelInfo :=
  { format := f, version := "", architecture := [], parameters := 0,
    contextSize := 0, vocabSize := 0, valid := true, errorMsg := "" }

/-- Descriptor state at a failing exit of `validateGGUF` taken before
the version string is recorded. -/
def ggufInvalid (msg : String) : ModelInfo :=
  { format := .gguf, version := "", architecture := [], parameters := 0,
    contextSize := 0, vocabSize := 0, valid := false, errorMsg := msg }

/-- Descriptor state at a failing exit of `validateGGUF` taken after the
version string is recorded. -/
def ggufInvalidAt (version : String) (msg : String) : ModelInfo :=
  { format := .gguf, version := version, architecture := [], parameters := 0,
    contextSize := 0, vocabSize := 0, valid := false, errorMsg := msg }

/-- Go `validateGGUF`, header reads and metadata parse in source order;
every exit returns a descriptor and a nil Go error, with the field
values the mutated `info` holds at that return. -/
def validateGGUF (content : List Nat) : ModelInfo :=
  match readLE 4 content with
  | none => ggufInvalid "Failed to read magic number"
  | some (magic, r1) =>
    if magic ≠ GGUFMagic then ggufInvalid "Invalid GGUF magic number"
    else
      match readLE 4 r1 with
      | none => ggufInvalid "Failed to read version"
      | some (version, r2) =>
        if version ≠ 2 ∧ version ≠ 3 then
          ggufInvalid ("Unsupported GGUF version: " ++ toString version)
        else
          match readLE 8 r2 with
          | none => ggufInvalidAt ("v" ++ toString version) "Failed to read tensor count"
          | some (tensorCount, r3) =>
            match readLE 8 r3 with
            | none => ggufInvalidAt ("v" ++ toString version) "Failed to read metadata count"
            | some (kvCount, r4) =>
              match parseGGUFMetadata kvCount r4 [] with
              | .error e =>
                ggufInvalidAt ("v" ++ toString version) ("Failed to parse metadata: " ++ e)
              | .ok (metadata, _) =>
                let arch :=
                  match lookupMeta metadata (strBytes "general.architecture") with
                  | some (.str a) => a
                  | _ => []
                let ctx : Int :=
                  match lookupMeta metadata (arch ++ strBytes ".context_length") with
                  | some (.u64 v) => (v : Int)
                  | _ => 0
                let vocab : Int :=
                  match lookupMeta metadata (arch ++ strBytes ".vocab_size") with
                  | some (.u64 v) => (v : Int)
                  | _ => 0
                { format := .gguf, version := "v" ++ toString version, architecture := arch, parameters := estimateParametersFromTensors (toSigned 64 tensorCount) arch, contextSize := ctx, vocabSize := vocab, valid := true, errorMsg := "" }

/-- Go `validateGGML`: magic check only. -/
def validateGGML (content : List Nat) : ModelInfo :=
  let info := baseInfo .ggml
  match readLE 4 content with
  | none => { info with valid := false, errorMsg := "Failed to read magic number" }
  | some (magic, _) =>
    if magic ≠ GGMLMagic then
      { info with valid := false, errorMsg := "Invalid GGML magic number" }
    else
      { info with architecture := strBytes "unknown", parameters := 7000000000 }

/-- Go `validateSafeTensors`: 8-byte header length with a sanity cap. -/
def validateSafeTensors (content : List Nat) : ModelInfo :=
  let info := baseInfo .safeTensors
  match readLE 8 content with
  | none => { info with valid := false, errorMsg := "Failed to read header length" }
  | some (headerLength, _) =>
    if headerLength > 100 * 1024 * 1024 then
      { info with valid := false, errorMsg := "Header length too large" }
    else
      { info with architecture := strBytes "transformer" }

/-- Go `isPyTorchFile`: pickle protocol marker in the first byte. -/
def isPyTorchFile (content : List Nat) : Bool :=
  match content.head? with
  | none => false
  | some b => b = 0x80 || b = 0x5d || b = 0x28

/-- Go `validatePyTorch`: first byte must be a pickle marker; a short or
empty file leaves the zeroed buffer, which is not a marker. -/
def validatePyTorch (content : List Nat) : ModelInfo :=
  let info := baseInfo .pyTorch
  if isPyTorchFile content then
    { info with architecture := strBytes "transformer", parameters := 7000000000 }
  else
    { info with valid := false, errorMsg := "Not a valid PyTorch file" }

/-- Go `validateONNX`: minimum-size check (the `Stat` call on an already
open file cannot fail in this model). -/
def validateONNX (content : List Nat) : ModelInfo :=
  let info := baseInfo .onnx
  if content.length < 1024 then
    { info with valid := false, errorMsg := "File too small to be a valid ONNX model" }
  else
    { info with architecture := strBytes "onnx" }

/-- Go `readMagic`: first 4 bytes little-endian; a read failure on a short
file leaves the zero value. -/
def readMagicVal (content : List Nat) : Nat :=
  if 4 ≤ content.length then leVal (content.take 4) else 0

/-- Go `filepath.Ext`: the suffix beginning at the final dot of the final
path element, empty if there is none. -/
def extOf (path : String) : String :=
  let revTail := path.data.reverse.takeWhile (fun c => c ≠ '/')
  if revTail.contains '.' then
    String.mk ('.' :: (revTail.takeWhile (fun c => c ≠ '.')).reverse)
  else
    ""

/-- The magic-number sniffing detectFormat falls back to when the
extension decides nothing. -/
def sniffMagic (content : List Nat) : ModelFormat :=
  if readMagicVal content = GGUFMagic then .gguf
  else if readMagicVal content = GGMLMagic then .ggml
  else .unknown

/-- Go `detectFormat`: extension switch first; the `.ggml`/`.bin` case can
fall out of the switch into magic sniffing when nothing matches. -/
def detectFormat (path : String) (content : List Nat) : ModelFormat :=
  let ext := strToLower (extOf path)
  if ext = ".gguf" then .gguf
  else if ext = ".ggml" ∨ ext = ".bin" then
    if readMagicVal content = GGMLMagic then .ggml
    else if isPyTorchFile content then .pyTorch
    else if ext = ".bin" then .ggml
    else sniffMagic content
  else if ext = ".safetensors" then .safeTensors
  else if ext = ".onnx" then .onnx
  else if ext = ".pt" ∨ ext = ".pth" then .pyTorch
  else sniffMagic content

/-- State of a path in the modelled filesystem: absent, present but not
openable (with the OS error text), or present with contents. -/
inductive FileState
  | absent
  | unreadable (osError : String)
  | file (content : List Nat)

/-- The modelled filesystem. -/
def FS : Type := String → FileState

/-- The descriptor `ValidateModel` returns for a missing file. -/
def fileNotFoundInfo : ModelInfo :=
  { format := .unknown, version := "", architecture := [], parameters := 0,
    contextSize := 0, vocabSize := 0, valid := false, errorMsg := "File not found" }

/-- The descriptor `ValidateModel` returns for an unrecognized format. -/
def unsupportedFormatInfo : ModelInfo :=
  { format := .unknown, version := "", architecture := [], parameters := 0,
    contextSize := 0, vocabSize := 0, valid := false, errorMsg := "Unsupported model format" }

/-- Dispatch of `ValidateModel` on the detected format; every branch of
the Go switch returns its descriptor with a nil error. -/
def validateContent (path : String) (content : List Nat) : ModelInfo :=
  match detectFormat path content with
  | .gguf => validateGGUF content
  | .ggml => validateGGML content
  | .safeTensors => validateSafeTensors content
  | .pyTorch => validatePyTorch content
  | .onnx => validateONNX content
  | .unknown => unsupportedFormatInfo

/-- Go `ValidateModel` from part_001.  A `.ok` result is a `(info, nil)`
return in Go; `.error` is a non-nil Go error (descriptor absent). -/
def ValidateModel (fs : FS) (path : String) : Except String ModelInfo :=
  match fs path with
  | .absent => .ok fileNotFoundInfo
  | .unreadable osError => .error ("failed to open file: " ++ osError)
  | .file content => .ok (validateContent path content)

/-- A filesystem with no files at all. -/
def absentFS : FS := fun _ => .absent

/-- Fixture for C7: 1024 bytes starting with the GGUF magic and a
version field of 5. -/
def onnxExtFile : List Nat := [0x47, 0x47, 0x55, 0x46, 5, 0, 0, 0] ++ List.replicate 1016 0

/-- Fixture filesystem holding `onnxExtFile` under an `.onnx` name. -/
def onnxExtFS : FS := fun p => if p = "model.onnx" then .file onnxExtFile else .absent

/-- Fixture for C8: a well-formed GGUF header (version 3, 0 tensors,
1 metadata entry) whose single entry has key "a" and the array type
tag 9. -/
def arrayTagFile : List Nat :=
  [0x47, 0x47, 0x55, 0x46] ++ [3, 0, 0, 0] ++ List.replicate 8 0 ++
    [1, 0, 0, 0, 0, 0, 0, 0] ++ [1, 0, 0, 0, 0, 0, 0, 0] ++ [0x61] ++ [9, 0, 0, 0]

/-- Fixture filesystem holding `arrayTagFile` under a `.gguf` name. -/
def arrayTagFS : FS := fun p => if p = "model.gguf" then .file arrayTagFile else .absent

/-- The GGUF value type tags `readGGUFValue` has a `case` for. -/
def handledTags : List Nat :=
  [GGUFTypeUint8, GGUFTypeInt8, GGUFTypeUint32, GGUFTypeInt32,
   GGUFTypeUint64, GGUFTypeInt64, GGUFTypeFloat32, GGUFTypeString, GGUFTypeBool]

end model

/-! ## Inference types (internal/types/types.go)

Float-typed sampling options are modelled as exact rationals: the engine
and wrapper only ever compare them with 0 and 1, and those comparisons
are unchanged by the float-to-rational reading of the literals. -/

namespace types

/-- Go `Message` from types.go. -/
structure Message where
  role : String
  content : String
deriving DecidableEq

/-- Go `Options` from types.go (Go zero values stand for unset fields). -/
structure Options where
  temperature : ℚ
  topP : ℚ
  topK : Int
  numPredict : Int
  stop : List String
deriving DecidableEq

/-- Go `GenerateRequest` from types.go (a nil `Options` pointer is
`none`). -/
structure GenerateRequest where
  model : String
  prompt : String
  stream : Bool
  options : Option Options
deriving DecidableEq

/-- Go `GenerateResponse` from types.go.  `CreatedAt` (a wall-clock
timestamp) is omitted: no claim concerns it. -/
structure GenerateResponse where
  model : String
  response : String
  done : Bool
deriving DecidableEq

end types

/-! ## Inference engines (internal/inference) -/

namespace inference

/-- Go `ModelOptions` from interface.go (`TensorSplit` float ratios are
carried opaquely as rationals; nothing computes with them). -/
structure ModelOptions where
  contextSize : Int
  gpuLayers : Int
  threads : Int
  batchSize : Int
  useMemoryMap : Bool
  useMemoryLock : Bool
  lowVRAM : Bool
  tensorSplit : List ℚ
  useCUDA : Bool
  useROCm : Bool
deriving DecidableEq

/-- Go `DefaultModelOptions` from interface.go. -/
def DefaultModelOptions : ModelOptions :=
  { contextSize := 2048, gpuLayers := 0, threads := 0, batchSize := 512,
    useMemoryMap := true, useMemoryLock := false, lowVRAM := false,
    tensorSplit := [], useCUDA := false, useROCm := false }

/-- Go `ModelInfo` from interface.go (the loaded-model descriptor). -/
structure ModelInfo where
  name : String
  path : String
  contextSize : Int
  vocabSize : Int
  parameters : Int
  gpuLayers : Int
  memoryUsed : Int
deriving DecidableEq

/-- Go `LoadedModel` from engine.go; `time.Now()` is modelled by a
caller-supplied tick. -/
structure LoadedModel where
  name : String
  path : String
  loadedAt : Nat
  info : ModelInfo
deriving DecidableEq

/-- Go map membership over an association-list registry. -/
def mapMem {α : Type} (m : List (String × α)) (k : String) : Bool :=
  m.any (fun p => decide (p.1 = k))

/-- Go map lookup over an association-list registry. -/
def mapLookup {α : Type} (m : List (String × α)) (k : String) : Option α :=
  (m.find? (fun p => decide (p.1 = k))).map (fun p => p.2)

/-- Go map assignment `m[k] = v`: the previous binding, if any, is
replaced. -/
def mapInsert {α : Type} (m : List (String × α)) (k : String) (v : α) : List (String × α) :=
  m.filter (fun p => decide (p.1 ≠ k)) ++ [(k, v)]

/-- Number of bindings a registry holds for a key. -/
def countKey {α : Type} (m : List (String × α)) (k : String) : Nat :=
  (m.filter (fun p => decide (p.1 = k))).length

/-- Go `SimulatedEngine` state from engine.go. -/
structure SimulatedEngine where
  models : List (String × LoadedModel)
deriving DecidableEq

/-- The `LoadedModel` value `SimulatedEngine.LoadModel` stores (vocab,
parameters and memory figures are the simulated constants). -/
def simFreshHandle (now : Nat) (name path : String) (opts : ModelOptions) : LoadedModel :=
  { name := name, path := path, loadedAt := now,
    info := { name := name, path := path, contextSize := opts.contextSize,
              vocabSize := 32000, parameters := 7000000000,
              gpuLayers := opts.gpuLayers, memoryUsed := 4000000000 } }

/-- Go `SimulatedEngine.LoadModel`: no I/O, no path validation, no
already-loaded check; it stores a fresh handle under the name and
returns nil unconditionally. -/
def SimLoadModel (e : SimulatedEngine) (now : Nat) (name path : String)
    (options : Option ModelOptions) : SimulatedEngine × Option String :=
  let opts := options.getD DefaultModelOptions
  ({ models := mapInsert e.models name (simFreshHandle now name path opts) }, none)

/-- Go `SimulatedEngine.IsModelLoaded`. -/
def SimIsModelLoaded (e : SimulatedEngine) (name : String) : Bool :=
  mapMem e.models name

/-- The `fallbacks` table of `simulateResponse`, indexed by the prompt
hash modulo its length. -/
def simFallbacks : List String :=
  ["I hear you! I\x27m currently running in simulation mode. For real AI responses, enable llama.cpp integration.",
   "Interesting! While I\x27m simulating responses right now, the qwen model you downloaded would handle this well in real mode.",
   "Thanks for your message! I\x27m in simulation mode - the real qwen model would provide much better responses.",
   "I understand! Currently simulating responses, but your downloaded qwen model is ready for real inference."]

/-- Go `simulateResponse` from engine.go: the branch cascade in source
order.  Lower-casing is the ASCII mapping (every compared literal is
ASCII); `len(prompt)` is the UTF-8 byte length. -/
def simulateResponse (prompt : String) : String :=
  let lowerPrompt := strToLower prompt
  if strContains lowerPrompt "hi" || strContains lowerPrompt "hello" then
    "Hello! I\x27m a simulated AI assistant. How can I help you today? (Note: This is simulated - for real inference, enable llama.cpp)"
  else if strContains lowerPrompt "how are you" then
    "I\x27m doing well, thank you for asking! I\x27m currently running in simulation mode. What can I help you with?"
  else if strContains lowerPrompt "what" && strContains lowerPrompt "name" then
    "I\x27m Colossus CLI\x27s simulated assistant. In real mode, I would be the qwen model you downloaded."
  else if strContains lowerPrompt "tell me about" then
    "I\x27d be happy to help! However, I\x27m currently running in simulation mode. For real AI responses, please compile Colossus with llama.cpp support."
  else if strContains lowerPrompt "code" || strContains lowerPrompt "programming" then
    "I can help with coding questions! Though I\x27m in simulation mode right now, the real qwen model you downloaded is great for programming tasks."
  else if strContains lowerPrompt "math" || strContains lowerPrompt "calculate" then
    "I can help with math problems! In real inference mode, I\x27d be able to solve complex calculations for you."
  else if strContains lowerPrompt "help" then
    "I\x27m here to help! Currently running in simulation mode. To get real AI responses, compile Colossus with llama.cpp integration."
  else if strContains lowerPrompt "bye" || strContains lowerPrompt "goodbye" then
    "Goodbye! Thanks for trying Colossus CLI. Enable llama.cpp for real AI conversations!"
  else if prompt.utf8ByteSize > 100 then
    "That\x27s quite a detailed message! I\x27m currently in simulation mode, but the real qwen model would provide a thoughtful response to your query."
  else if strContains lowerPrompt "?" then
    "That\x27s a great question! In real inference mode, I\x27d analyze your question carefully and provide a detailed answer."
  else
    let hash := prompt.data.foldl (fun h c => h + c.toNat) 0
    simFallbacks.getD (hash % simFallbacks.length) ""

/-- Go `SimulatedEngine.Generate`: not-loaded check, then one complete
simulated response with done = true and a nil error. -/
def SimGenerate (e : SimulatedEngine) (req : types.GenerateRequest) :
    Except String types.GenerateResponse :=
  if SimIsModelLoaded e req.model = false then
    .error ("model not loaded: " ++ req.model)
  else
    .ok { model := req.model, response := simulateResponse req.prompt, done := true }

/-- The body of the `for i, word := range words` delivery loop of
`SimulatedEngine.GenerateStream`: fragment `i` carries `done` iff it is
the last index. -/
def streamLoop (modelName : String) (total : Nat) : Nat → List String → List types.GenerateResponse
  | _, [] => []
  | i, w :: ws =>
    { model := modelName, response := w, done := decide (i = total - 1) } ::
      streamLoop modelName total (i + 1) ws

/-- Go `SimulatedEngine.GenerateStream`: the sequence of fragments the
loop hands to the delivery callback, in order (the full sequence is
delivered when every callback invocation returns nil). -/
def SimStreamFragments (e : SimulatedEngine) (req : types.GenerateRequest) :
    Except String (List types.GenerateResponse) :=
  if SimIsModelLoaded e req.model = false then
    .error ("model not loaded: " ++ req.model)
  else
    let words := splitIntoWords (simulateResponse req.prompt)
    .ok (streamLoop req.model words.length 0 words)

/-- Go `strings.Join(parts, sep)`. -/
def strJoinSep (sep : String) : List String → String
  | [] => ""
  | [s] => s
  | s :: rest => s ++ sep ++ strJoinSep sep rest

/-- Go `SimulatedEngine.formatChatPrompt` from engine.go: recognized
roles become prefixed parts, joined with a newline separator — no
trailing cue. -/
def simFormatChatPrompt (messages : List types.Message) : String :=
  strJoinSep "\n" (messages.filterMap (fun m =>
    if m.role = "user" then some ("User: " ++ m.content)
    else if m.role = "assistant" then some ("Assistant: " ++ m.content)
    else if m.role = "system" then some ("System: " ++ m.content)
    else none))

/-- Go `LlamaCppEngine.formatChatPrompt` from part_002: role-prefixed
lines accumulated in order, unrecognized roles skipped, then the
trailing cue. -/
def formatChatPrompt (messages : List types.Message) : String :=
  (messages.foldl (fun prompt m =>
    if m.role = "system" then prompt ++ ("System: " ++ m.content ++ "\n")
    else if m.role = "user" then prompt ++ ("User: " ++ m.content ++ "\n")
    else if m.role = "assistant" then prompt ++ ("Assistant: " ++ m.content ++ "\n")
    else prompt) "") ++ "Assistant: "

/-- The chat-formatting algorithm exactly as the specification words it
(spec section 4.3): per-message role-prefixed line plus line break for
the three recognized roles, silent drop otherwise, then the trailing
`Assistant: ` cue with no line break. -/
def specChatFormat (messages : List types.Message) : String :=
  String.join (messages.filterMap (fun m =>
    if m.role = "system" then some ("System: " ++ m.content ++ "\n")
    else if m.role = "user" then some ("User: " ++ m.content ++ "\n")
    else if m.role = "assistant" then some ("Assistant: " ++ m.content ++ "\n")
    else none)) ++ "Assistant: "

end inference

/-! ## llama.cpp engine (part_002) and sampling wrapper (bindings.go) -/

namespace llama

/-- Which candidate filters `llama_sample_token_wrapper` applies before
the final `llama_sample_token` call. -/
structure AppliedFilters where
  tempScaled : Bool
  nucleus : Bool
  topKCut : Bool
deriving DecidableEq

/-- Go/C `llama_sample_token_wrapper` (bindings.go): temperature
scaling, nucleus and top-k run only under `temp > 0`; nucleus only when
`top_p < 1.0`, top-k only when `top_k > 0`. -/
def sampleFilters (temp topP : ℚ) (topK : Int) : AppliedFilters :=
  if temp > 0 then
    { tempScaled := true, nucleus := decide (topP < 1), topKCut := decide (topK > 0) }
  else
    { tempScaled := false, nucleus := false, topKCut := false }

/-- The filter set of the `temp <= 0` path of the wrapper: none applied
(the skipped-entirely posture named by C5). -/
def noFilters : AppliedFilters :=
  { tempScaled := false, nucleus := false, topKCut := false }

end llama

namespace inference

/-- Effective sampling parameters of `LlamaCppEngine.Generate` (part_002
lines 181-196): defaults 0.8 / 0.95 / 40, each overridden only when the
request option is strictly positive (Go cannot distinguish an explicit 0
from unset).  The float literals are read as exact rationals; only their
comparisons with 0 and 1 are ever used. -/
structure EffSampling where
  temperature : ℚ
  topP : ℚ
  topK : Int
deriving DecidableEq

/-- Go `LlamaCppEngine.Generate` parameter setup. -/
def effectiveSampling (options : Option types.Options) : EffSampling :=
  match options with
  | none => { temperature := 4/5, topP := 19/20, topK := 40 }
  | some o =>
    { temperature := if o.temperature > 0 then o.temperature else 4/5,
      topP := if o.topP > 0 then o.topP else 19/20,
      topK := if o.topK > 0 then o.topK else 40 }

/-- Go `maxTokens` selection in `LlamaCppEngine.Generate`: default 512,
overridden by a positive `NumPredict`. -/
def maxTokensFor (options : Option types.Options) : Nat :=
  match options with
  | none => 512
  | some o => if o.numPredict > 0 then o.numPredict.toNat else 512

/-- Success-path oracle for the native calls the generation loop makes:
a deterministic sampled-token stream (indexed by how many response
tokens precede the call) and a detokenizer.  Evaluation and sampling
failures abort the request and are outside claim C1, which concerns the
stop-string control flow of the loop. -/
structure Backend where
  sample : Nat → Int
  detok : List Int → String

/-- Discards the stop-check result, as the inner `break` in the source
effectively does. -/
def ignoreStop (_b : Bool) (k : List Int) : List Int := k

/-- The token loop of `LlamaCppEngine.Generate` (part_002 lines
198-225): sample, append, evaluate, then the stop-sequence block.  In
the source the block detokenizes the accumulator and tests each
configured stop string, but its `break` exits only the inner
`range req.Options.Stop` loop, so the result of the check (`stopHit`
below) never alters the control flow of the token loop. -/
def genLoop (be : Backend) (stops : List String) : Nat → List Int → List Int
  | 0, acc => acc
  | n + 1, acc =>
    let token := be.sample acc.length
    let acc' := acc ++ [token]
    let stopHit := stops.any (fun stop => strContains (be.detok acc') stop)
    ignoreStop stopHit (genLoop be stops n acc')

/-- Go `LlamaCppEngine.Generate` success path: run the loop for
`maxTokens` steps from the empty accumulator, detokenize everything,
return one complete result with done = true. -/
def LlamaGenerate (be : Backend) (req : types.GenerateRequest) : types.GenerateResponse :=
  let stops := match req.options with | none => [] | some o => o.stop
  let tokens := genLoop be stops (maxTokensFor req.options) []
  { model := req.model, response := be.detok tokens, done := true }

/-- Go `LlamaCppModel` handle identity: the two native objects a load
allocates, tagged with fresh allocation ids so leaks are observable. -/
structure LlamaCppModel where
  name : String
  path : String
  modelId : Nat
  ctxId : Nat
deriving DecidableEq

/-- Go `LlamaCppEngine` state: the registry plus an allocation tick and
the ids released with `Free` (never touched by `LoadModel`). -/
structure LlamaCppEngine where
  models : List (String × LlamaCppModel)
  nextId : Nat
  freed : List Nat
deriving DecidableEq

/-- Go `LlamaCppEngine.IsModelLoaded`. -/
def LlamaIsModelLoaded (e : LlamaCppEngine) (name : String) : Bool :=
  mapMem e.models name

/-- Go `LlamaCppEngine.LoadModel` (part_002 lines 42-119), with the
native `llama.LoadModel` / `NewContext` outcomes supplied as per-path
oracles.  There is no already-loaded check: a successful load always
allocates a fresh model and context object and overwrites the registry
entry; only the context-failure branch frees anything. -/
def LlamaLoadModel (loadOk ctxOk : String → Bool) (e : LlamaCppEngine)
    (name path : String) : LlamaCppEngine × Option String :=
  if loadOk path = false then
    (e, some ("failed to load model from " ++ path))
  else if ctxOk path = false then
    ({ e with nextId := e.nextId + 1, freed := e.freed ++ [e.nextId] },
      some ("failed to create context for model " ++ name))
  else
    ({ models := mapInsert e.models name
        { name := name, path := path, modelId := e.nextId, ctxId := e.nextId + 1 },
       nextId := e.nextId + 2, freed := e.freed }, none)

end inference

namespace inference

/-- Fixture for C2: an engine with "m" loaded from "p1" at tick 0. -/
def c2Engine : SimulatedEngine := (SimLoadModel { models := [] } 0 "m" "p1" none).1

/-- Fixture for C2: a llama.cpp engine with "m" resident. -/
def c2LlamaEngine : LlamaCppEngine :=
  { models := [("m", { name := "m", path := "p1", modelId := 0, ctxId := 1 })],
    nextId := 2, freed := [] }

/-- Fixture for C5: request options that set temperature explicitly
to 0 (with positive top-p and top-k). -/
def zeroTempOptions : types.Options :=
  { temperature := 0, topP := 19/20, topK := 40, numPredict := 0, stop := [] }

/-- Fixture for C6: an engine with "m" resident. -/
def c6Engine : SimulatedEngine := (SimLoadModel { models := [] } 0 "m" "p" none).1

/-- Fixture for C6: a generate request against "m". -/
def c6Request : types.GenerateRequest :=
  { model := "m", prompt := "hi", stream := true, options := none }

/-- Fixture backend for C1: token i is sampled at step i; token 1
detokenizes to "STOP", every other token to "a". -/
def stopBackend : Backend :=
  { sample := fun i => (i : Int),
    detok := fun toks => String.join (toks.map (fun t => if t = 1 then "STOP" else "a")) }

/-- Fixture request for C1: stop-strings ["STOP"], four tokens. -/
def stopRequest : types.GenerateRequest :=
  { model := "m", prompt := "p", stream := false,
    options := some { temperature := 0, topP := 0, topK := 0, numPredict := 4, stop := ["STOP"] } }

end inference

/-! ## Theorems -/

theorem splitWordsAux_join (rest : List Char) :
    ∀ current, (splitWordsAux current rest).flatten = current ++ rest := by
  induction rest with
  | nil =>
    intro current
    by_cases h : current = [] <;> simp [splitWordsAux, h]
  | cons c cs ih =>
    intro current
    simp only [splitWordsAux]
    by_cases hb : isWordBreak c
    · have hne : current ++ [c] ≠ [] := by simp
      simp [hb, hne, ih]
    · simp [hb, ih]

theorem splitWordsAux_ne_nil (rest : List Char) :
    ∀ current w, w ∈ splitWordsAux current rest → w ≠ [] := by
  induction rest with
  | nil =>
    intro current w hw
    by_cases h : current = [] <;> simp [splitWordsAux, h] at hw
    subst hw; exact h
  | cons c cs ih =>
    intro current w hw
    simp only [splitWordsAux] at hw
    by_cases hb : isWordBreak c
    · have hne : current ++ [c] ≠ [] := by simp
      rw [if_pos hb, if_neg hne, List.mem_cons] at hw
      cases hw with
      | inl h => subst h; exact hne
      | inr h => exact ih [] w h
    · rw [if_neg hb] at hw
      exact ih (current ++ [c]) w hw

theorem foldl_append_data (bs : List String) :
    ∀ s : String, (bs.foldl (· ++ ·) s).data = s.data ++ (bs.map String.data).flatten := by
  induction bs with
  | nil => intro s; simp
  | cons b bs ih =>
    intro s
    simp only [List.foldl, List.map_cons, List.flatten]
    rw [ih (s ++ b)]
    simp [String.data_append, List.append_assoc]

theorem join_map_mk (l : List (List Char)) :
    String.join (l.map String.mk) = String.mk l.flatten := by
  apply String.ext
  unfold String.join
  rw [foldl_append_data]
  simp only [List.map_map, List.nil_append]
  have hcomp : (String.data ∘ String.mk) = id := rfl
  rw [hcomp, List.map_id]

/-- Helper: concatenating `splitIntoWords s` restores `s`. -/
theorem join_splitIntoWords (s : String) : String.join (splitIntoWords s) = s := by
  unfold splitIntoWords
  rw [join_map_mk, splitWordsAux_join]
  simp

/-- Helper: no element of `splitIntoWords s` is empty. -/
theorem splitIntoWords_elems_ne_empty (s : String) : ∀ w ∈ splitIntoWords s, w ≠ "" := by
  intro w hw
  unfold splitIntoWords at hw
  rcases List.mem_map.mp hw with ⟨l, hl, rfl⟩
  have hne := splitWordsAux_ne_nil s.data [] l hl
  intro hcon
  apply hne
  have hdata : (String.mk l).data = ("" : String).data := by rw [hcon]
  simpa using hdata

/-- Helper: a non-empty string splits into a non-empty word list. -/
theorem splitIntoWords_ne_nil (s : String) (hs : s ≠ "") : splitIntoWords s ≠ [] := by
  intro hcon
  have hj := join_splitIntoWords s
  rw [hcon] at hj
  have heq : ("" : String) = s := hj
  exact hs heq.symm

/-- C9: for every input string `s`, concatenating in order all
elements of `splitIntoWords s` yields exactly `s`, and no element is
empty. -/
theorem splitIntoWords_partition (s : String) :
    String.join (splitIntoWords s) = s ∧ ∀ w ∈ splitIntoWords s, w ≠ "" :=
  ⟨join_splitIntoWords s, splitIntoWords_elems_ne_empty s⟩


/-- C3 (counterexample): on a filesystem where "missing.gguf" does not
exist, ValidateModel returns a ModelDescriptor (valid = false, detail
"File not found") together with a nil Go error — not an I/O error, and
a descriptor is returned, contradicting the claim. -/
theorem validateModel_absent_counterexample :
    model.ValidateModel model.absentFS "missing.gguf" = .ok model.fileNotFoundInfo ∧
    model.fileNotFoundInfo.valid = false ∧
    ∀ e, model.ValidateModel model.absentFS "missing.gguf" ≠ .error e := by
  refine ⟨rfl, rfl, ?_⟩
  intro e h
  rw [show model.ValidateModel model.absentFS "missing.gguf" = .ok model.fileNotFoundInfo from rfl] at h
  exact Except.noConfusion h

/-- C3 (amended): for every path naming a file that does not exist,
ValidateModel returns the descriptor { valid := false, errorDetail :=
"File not found" } with a nil error; a non-nil (I/O) error is returned
only when an existing file cannot be opened, never for a missing file
and never for malformed content. -/
theorem validateModel_missing_and_error_behavior (fs : model.FS) (path : String) :
    (fs path = .absent → model.ValidateModel fs path = .ok model.fileNotFoundInfo) ∧
    (∀ e, model.ValidateModel fs path = .error e →
      ∃ osError, fs path = .unreadable osError ∧ e = "failed to open file: " ++ osError) := by
  constructor
  · intro h
    unfold model.ValidateModel
    rw [h]
  · intro e he
    cases hfs : fs path with
    | absent =>
      have hv : model.ValidateModel fs path = .ok model.fileNotFoundInfo := by
        unfold model.ValidateModel
        rw [hfs]
      rw [hv] at he
      exact Except.noConfusion he
    | unreadable osError =>
      have hv : model.ValidateModel fs path = .error ("failed to open file: " ++ osError) := by
        unfold model.ValidateModel
        rw [hfs]
      rw [hv] at he
      injection he with h
      exact ⟨osError, rfl, h.symm⟩
    | file content =>
      have hv : model.ValidateModel fs path = .ok (model.validateContent path content) := by
        unfold model.ValidateModel
        rw [hfs]
      rw [hv] at he
      exact Except.noConfusion he

/-- Witness for the amended C3 theorem at a concrete filesystem. -/
theorem validateModel_missing_witness :
    model.absentFS "nope.bin" = .absent ∧
    model.ValidateModel model.absentFS "nope.bin" = .ok model.fileNotFoundInfo :=
  ⟨rfl, (validateModel_missing_and_error_behavior model.absentFS "nope.bin").1 rfl⟩

set_option maxRecDepth 16384 in
/-- C7 (counterexample): a 1024-byte file named "model.onnx" whose first
four bytes equal the GGUF magic and whose version field is 5 (neither
accepted constant) is routed by extension to the ONNX validator and
reported valid = true, with no unsupported-version detail. -/
theorem gguf_magic_bad_version_counterexample :
    model.readMagicVal model.onnxExtFile = model.GGUFMagic ∧
    model.readLE 4 (model.onnxExtFile.drop 4) = some (5, List.replicate 1016 0) ∧
    model.ValidateModel model.onnxExtFS "model.onnx" =
      .ok { format := .onnx, version := "", architecture := model.strBytes "onnx",
            parameters := 0, contextSize := 0, vocabSize := 0, valid := true, errorMsg := "" } := by
  refine ⟨rfl, rfl, rfl⟩

/-- C7 (amended): when a file is routed to the GGUF validator (which
detectFormat does for `.gguf` extensions and for magic-sniffed files,
but not for GGUF-magic files whose extension names another format), a
GGUF magic followed by a version that is neither 2 nor 3 yields a
descriptor with valid = false and the unsupported-version detail, and
ValidateModel surfaces it with a nil error. -/
theorem validateGGUF_unsupported_version (content r1 r2 : List Nat) (v : Nat)
    (h1 : model.readLE 4 content = some (model.GGUFMagic, r1))
    (h2 : model.readLE 4 r1 = some (v, r2))
    (hv2 : v ≠ 2) (hv3 : v ≠ 3) :
    model.validateGGUF content = model.ggufInvalid ("Unsupported GGUF version: " ++ toString v) ∧
    ∀ (fs : model.FS) (path : String), fs path = model.FileState.file content →
      model.detectFormat path content = .gguf →
      model.ValidateModel fs path = .ok (model.validateGGUF content) := by
  have hval : model.validateGGUF content =
      model.ggufInvalid ("Unsupported GGUF version: " ++ toString v) := by
    unfold model.validateGGUF
    rw [h1]
    simp only [ne_eq, not_true_eq_false, ite_false]
    rw [h2]
    simp [hv2, hv3]
  refine ⟨hval, ?_⟩
  intro fs path hfs hdf
  have hv : model.ValidateModel fs path = .ok (model.validateContent path content) := by
    unfold model.ValidateModel
    rw [hfs]
  rw [hv]
  unfold model.validateContent
  rw [hdf]

/-- Witness for the amended C7 theorem at a concrete `.gguf` file. -/
theorem validateGGUF_unsupported_version_witness :
    model.validateGGUF [0x47, 0x47, 0x55, 0x46, 7, 0, 0, 0] =
      model.ggufInvalid ("Unsupported GGUF version: " ++ toString 7) :=
  (validateGGUF_unsupported_version [0x47, 0x47, 0x55, 0x46, 7, 0, 0, 0] [7, 0, 0, 0] [] 7
    (by decide) (by decide) (by decide) (by decide)).1

set_option maxRecDepth 16384 in
/-- C8 (counterexample): the array type tag 9 is not decoded as N
homogeneous elements — `readGGUFValue` fails on it, and a GGUF file
whose metadata holds an array-tagged entry comes back valid = false
(with a nil error at the ValidateModel level). -/
theorem gguf_array_tag_counterexample :
    model.readGGUFValue [9, 0, 0, 0] = .error "unsupported value type: 9" ∧
    model.ValidateModel model.arrayTagFS "model.gguf" =
      .ok (model.ggufInvalidAt "v3"
        "Failed to parse metadata: failed to read metadata value for key a: unsupported value type: 9") := by
  refine ⟨rfl, rfl⟩

/-- C8 (amended): a metadata value is decoded according to its 4-byte
tag only for the scalar tags (uint8, int8, uint32, int32, uint64,
int64, float32, bool) and the string tag; every other tag — including
the declared array, uint16, int16 and float64 tags — is a decode
failure for that entry, and such a failure surfaces as a descriptor,
never as a thrown error fatal to a directory scan. -/
theorem readGGUFValue_tag_dispatch (bs rest : List Nat) (t : Nat)
    (hread : model.readLE 4 bs = some (t, rest)) :
    (t ∉ model.handledTags →
      model.readGGUFValue bs = .error ("unsupported value type: " ++ toString t)) ∧
    (t ∈ model.handledTags → t ≠ model.GGUFTypeString →
      ∃ v r, model.readGGUFValue bs = .ok (v, r)) ∧
    (t = model.GGUFTypeString → ∀ s r2, model.readGGUFString rest = .ok (s, r2) →
      model.readGGUFValue bs = .ok (.str s, r2)) ∧
    (∀ (fs : model.FS) (path : String) content, fs path = model.FileState.file content →
      ∃ info, model.ValidateModel fs path = .ok info) := by
  refine ⟨?_, ?_, ?_, ?_⟩
  · intro hmem
    simp only [model.handledTags, model.GGUFTypeUint8, model.GGUFTypeInt8,
      model.GGUFTypeUint32, model.GGUFTypeInt32, model.GGUFTypeUint64, model.GGUFTypeInt64,
      model.GGUFTypeFloat32, model.GGUFTypeString, model.GGUFTypeBool,
      List.mem_cons, List.not_mem_nil, or_false, not_or] at hmem
    obtain ⟨n0, n1, n4, n5, n10, n11, n6, n8, n7⟩ := hmem
    unfold model.readGGUFValue
    rw [hread]
    simp [model.GGUFTypeUint8, model.GGUFTypeInt8, model.GGUFTypeUint32,
      model.GGUFTypeInt32, model.GGUFTypeUint64, model.GGUFTypeInt64,
      model.GGUFTypeFloat32, model.GGUFTypeString, model.GGUFTypeBool,
      n0, n1, n4, n5, n10, n11, n6, n8, n7]
  · intro hmem hns
    unfold model.readGGUFValue
    rw [hread]
    simp only [model.handledTags, List.mem_cons, List.not_mem_nil, or_false] at hmem
    rcases hmem with h | h | h | h | h | h | h | h | h <;> subst h <;>
      first
        | exact absurd rfl hns
        | exact ⟨_, _, rfl⟩
  · intro ht s r2 hs
    subst ht
    unfold model.readGGUFValue
    rw [hread]
    simp [model.GGUFTypeUint8, model.GGUFTypeInt8, model.GGUFTypeUint32,
      model.GGUFTypeInt32, model.GGUFTypeUint64, model.GGUFTypeInt64,
      model.GGUFTypeFloat32, model.GGUFTypeString, model.GGUFTypeBool, hs]
  · intro fs path content hfs
    refine ⟨model.validateContent path content, ?_⟩
    unfold model.ValidateModel
    rw [hfs]

/-- Witness for the amended C8 theorem: the uint16 tag 2 (declared but
caseless) fails. -/
theorem readGGUFValue_tag_dispatch_witness :
    model.readGGUFValue [2, 0, 0, 0] = .error ("unsupported value type: " ++ toString 2) :=
  (readGGUFValue_tag_dispatch [2, 0, 0, 0] [] 2 (by decide)).1 (by decide)

/-- Helper: appending the empty string on the right. -/
theorem strAppend_empty (s : String) : s ++ "" = s := by
  apply String.ext
  simp [String.data_append]

/-- Helper: string append is associative. -/
theorem strAppend_assoc (a b c : String) : a ++ b ++ c = a ++ (b ++ c) := by
  apply String.ext
  simp [String.data_append]

/-- Helper: joining a cons. -/
theorem strJoin_cons (s : String) (l : List String) :
    String.join (s :: l) = s ++ String.join l := by
  apply String.ext
  unfold String.join
  rw [foldl_append_data, String.data_append, foldl_append_data]
  simp

/-- Helper: looking up the key just inserted returns the new value. -/
theorem mapLookup_mapInsert {α : Type} (m : List (String × α)) (k : String) (v : α) :
    inference.mapLookup (inference.mapInsert m k v) k = some v := by
  unfold inference.mapLookup inference.mapInsert
  have hnone : (m.filter (fun p => decide (p.1 ≠ k))).find? (fun p => decide (p.1 = k)) = none := by
    rw [List.find?_eq_none]
    intro x hx
    have := (List.mem_filter.mp hx).2
    simp at this ⊢
    exact this
  rw [List.find?_append, hnone]
  simp [List.find?]

/-- Helper: after an insert the registry holds exactly one binding for
the key. -/
theorem countKey_mapInsert {α : Type} (m : List (String × α)) (k : String) (v : α) :
    inference.countKey (inference.mapInsert m k v) k = 1 := by
  unfold inference.countKey inference.mapInsert
  rw [List.filter_append]
  have hnil : (m.filter (fun p => decide (p.1 ≠ k))).filter (fun p => decide (p.1 = k)) = [] := by
    rw [List.filter_eq_nil_iff]
    intro x hx
    have := (List.mem_filter.mp hx).2
    simp at this ⊢
    exact this
  rw [hnil]
  simp [List.filter]

/-- Helper: membership after an insert. -/
theorem mapMem_mapInsert {α : Type} (m : List (String × α)) (k : String) (v : α) :
    inference.mapMem (inference.mapInsert m k v) k = true := by
  unfold inference.mapMem inference.mapInsert
  rw [List.any_append]
  simp [List.any]

/-- C10: `SimulatedEngine.LoadModel` returns a nil error for every
engine state, name, path and options value — it consults no filesystem
(the path is stored, never opened), so its failure branch is
unreachable and any string becomes a resident model name. -/
theorem simLoadModel_always_succeeds (e : inference.SimulatedEngine) (now : Nat)
    (name path : String) (options : Option inference.ModelOptions) :
    (inference.SimLoadModel e now name path options).2 = none ∧
    inference.SimIsModelLoaded (inference.SimLoadModel e now name path options).1 name = true := by
  refine ⟨rfl, ?_⟩
  unfold inference.SimIsModelLoaded inference.SimLoadModel
  exact mapMem_mapInsert e.models name _

/-- C2 (counterexample): loading "m" again while loaded succeeds but is
a reload, not a no-op — the path of the resident handle changes from "p1" to
"p2", so the one pre-existing handle is not what remains. -/
theorem simLoadModel_reload_counterexample :
    inference.SimIsModelLoaded inference.c2Engine "m" = true ∧
    (inference.SimLoadModel inference.c2Engine 1 "m" "p2" none).2 = none ∧
    (inference.mapLookup inference.c2Engine.models "m").map (fun h => h.path) = some "p1" ∧
    (inference.mapLookup (inference.SimLoadModel inference.c2Engine 1 "m" "p2" none).1.models "m").map
        (fun h => h.path) = some "p2" := by
  exact ⟨rfl, rfl, rfl, rfl⟩

/-- C2 (amended): loading an already-loaded name returns success and the
registry still maps the name to exactly one handle — but the call is a
full reload: the stored handle is the freshly built one, and in the
llama.cpp engine a fresh model and context object are allocated while
nothing (in particular not the pair held by the replaced handle) is freed. -/
theorem loadModel_already_loaded_reloads (e : inference.SimulatedEngine) (now : Nat)
    (name path : String) (options : Option inference.ModelOptions)
    (hres : inference.SimIsModelLoaded e name = true) :
    ((inference.SimLoadModel e now name path options).2 = none ∧
      inference.countKey (inference.SimLoadModel e now name path options).1.models name = 1 ∧
      inference.mapLookup (inference.SimLoadModel e now name path options).1.models name =
        some (inference.simFreshHandle now name path
          (options.getD inference.DefaultModelOptions))) ∧
    ∀ (loadOk ctxOk : String → Bool) (le : inference.LlamaCppEngine),
      inference.LlamaIsModelLoaded le name = true →
      loadOk path = true → ctxOk path = true →
      ((inference.LlamaLoadModel loadOk ctxOk le name path).2 = none ∧
        inference.countKey (inference.LlamaLoadModel loadOk ctxOk le name path).1.models name = 1 ∧
        inference.mapLookup (inference.LlamaLoadModel loadOk ctxOk le name path).1.models name =
          some { name := name, path := path, modelId := le.nextId, ctxId := le.nextId + 1 } ∧
        (inference.LlamaLoadModel loadOk ctxOk le name path).1.freed = le.freed) := by
  constructor
  · refine ⟨rfl, ?_, ?_⟩
    · exact countKey_mapInsert e.models name _
    · exact mapLookup_mapInsert e.models name _
  · intro loadOk ctxOk le hloaded hload hctx
    have hv : inference.LlamaLoadModel loadOk ctxOk le name path =
        ({ models := inference.mapInsert le.models name
            { name := name, path := path, modelId := le.nextId, ctxId := le.nextId + 1 },
           nextId := le.nextId + 2, freed := le.freed }, none) := by
      unfold inference.LlamaLoadModel
      rw [hload, hctx]
      simp
    rw [hv]
    refine ⟨rfl, ?_, ?_, rfl⟩
    · exact countKey_mapInsert le.models name _
    · exact mapLookup_mapInsert le.models name _

/-- Witness for the amended C2 theorem at a concrete loaded engine. -/
theorem loadModel_already_loaded_reloads_witness :
    inference.SimIsModelLoaded inference.c2Engine "m" = true ∧
    (inference.SimLoadModel inference.c2Engine 1 "m" "p2" none).2 = none ∧
    inference.countKey (inference.SimLoadModel inference.c2Engine 1 "m" "p2" none).1.models "m" = 1 ∧
    (inference.LlamaLoadModel (fun _ => true) (fun _ => true) inference.c2LlamaEngine "m" "p2").1.freed = [] :=
  ⟨rfl,
    (loadModel_already_loaded_reloads inference.c2Engine 1 "m" "p2" none rfl).1.1,
    (loadModel_already_loaded_reloads inference.c2Engine 1 "m" "p2" none rfl).1.2.1,
    ((loadModel_already_loaded_reloads inference.c2Engine 1 "m" "p2" none rfl).2
      (fun _ => true) (fun _ => true) inference.c2LlamaEngine rfl rfl rfl).2.2.2⟩

/-- Helper: the llama.cpp chat fold accumulates the spec-side lines. -/
theorem chatFoldAux (msgs : List types.Message) : ∀ acc : String,
    msgs.foldl (fun prompt m =>
      if m.role = "system" then prompt ++ ("System: " ++ m.content ++ "\n")
      else if m.role = "user" then prompt ++ ("User: " ++ m.content ++ "\n")
      else if m.role = "assistant" then prompt ++ ("Assistant: " ++ m.content ++ "\n")
      else prompt) acc =
    acc ++ String.join (msgs.filterMap (fun m =>
      if m.role = "system" then some ("System: " ++ m.content ++ "\n")
      else if m.role = "user" then some ("User: " ++ m.content ++ "\n")
      else if m.role = "assistant" then some ("Assistant: " ++ m.content ++ "\n")
      else none)) := by
  induction msgs with
  | nil =>
    intro acc
    simp [String.join, strAppend_empty]
  | cons m ms ih =>
    intro acc
    rw [List.foldl_cons, List.filterMap_cons]
    split_ifs <;>
      (first
        | (rw [ih]; dsimp only; rw [strJoin_cons, strAppend_assoc])
        | rw [ih])

/-- C4 (counterexample): the claim quantifies over "the chat formatter",
but `SimulatedEngine.formatChatPrompt` joins the recognized role lines
with newline separators and appends no trailing cue: on `[]` it returns
`""` rather than `"Assistant: "`, and on the cited two-message example
it returns `"User: hi\nAssistant: hello"` with no trailing cue. -/
theorem simFormatChatPrompt_counterexample :
    inference.simFormatChatPrompt [] = "" ∧
    inference.simFormatChatPrompt [] ≠ "Assistant: " ∧
    inference.simFormatChatPrompt
        [{ role := "user", content := "hi" }, { role := "assistant", content := "hello" }] =
      "User: hi\nAssistant: hello" := by
  refine ⟨rfl, ?_, rfl⟩
  intro hcon
  have : ("" : String) = "Assistant: " := hcon
  simp at this

/-- C4 (amended): the claimed behaviour — deterministic total function,
role-prefixed line plus line break per recognized message in order,
silent drop of unrecognized roles, trailing `Assistant: ` cue, and the
two cited examples — holds of `LlamaCppEngine.formatChatPrompt` (the
formatter of the simulated engine differs as the counterexample shows). -/
theorem formatChatPrompt_matches_spec (messages : List types.Message) :
    inference.formatChatPrompt messages = inference.specChatFormat messages ∧
    inference.formatChatPrompt [] = "Assistant: " ∧
    inference.formatChatPrompt
        [{ role := "user", content := "hi" }, { role := "assistant", content := "hello" }] =
      "User: hi\nAssistant: hello\nAssistant: " := by
  refine ⟨?_, rfl, rfl⟩
  unfold inference.formatChatPrompt inference.specChatFormat
  rw [chatFoldAux]
  have : ("" : String) ++ String.join (messages.filterMap (fun m =>
      if m.role = "system" then some ("System: " ++ m.content ++ "\n")
      else if m.role = "user" then some ("User: " ++ m.content ++ "\n")
      else if m.role = "assistant" then some ("Assistant: " ++ m.content ++ "\n")
      else none)) = String.join (messages.filterMap (fun m =>
      if m.role = "system" then some ("System: " ++ m.content ++ "\n")
      else if m.role = "user" then some ("User: " ++ m.content ++ "\n")
      else if m.role = "assistant" then some ("Assistant: " ++ m.content ++ "\n")
      else none)) := by
    apply String.ext
    simp [String.data_append]
  rw [this]

/-- C5 (counterexample): a request whose options set temperature to 0 is
not sampled greedily — the engine substitutes the default 0.8 (Go cannot
tell an explicit 0 from unset), and at temperature 0.8 the wrapper
applies the temperature, nucleus and top-k filters rather than skipping
them. -/
theorem temperature_zero_counterexample :
    inference.zeroTempOptions.temperature = 0 ∧
    inference.effectiveSampling (some inference.zeroTempOptions) =
      { temperature := 4/5, topP := 19/20, topK := 40 } ∧
    llama.sampleFilters (4/5) (19/20) 40 =
      { tempScaled := true, nucleus := true, topKCut := true } ∧
    llama.sampleFilters (4/5) (19/20) 40 ≠ llama.noFilters := by
  refine ⟨rfl, ?_, ?_, ?_⟩
  · unfold inference.effectiveSampling inference.zeroTempOptions
    norm_num
  · unfold llama.sampleFilters
    norm_num
  · unfold llama.sampleFilters llama.noFilters
    norm_num

/-- C5 (amended): the defaults 0.8 / 0.95 / 40 apply whenever options
are nil or the corresponding field is not strictly positive (an explicit
0 is indistinguishable from unset), so the effective temperature is
always positive: every Generate call reaches the filtering path of the
wrapper (temperature scaling and top-k always applied, nucleus applied
exactly when the effective top-p is below 1), while the greedy
skip-filters path of the wrapper runs only for temperature arguments at most 0,
which Generate never produces. -/
theorem sampling_defaults_and_filters (o : types.Options) :
    (inference.effectiveSampling none = { temperature := 4/5, topP := 19/20, topK := 40 }) ∧
    (o.temperature ≤ 0 → (inference.effectiveSampling (some o)).temperature = 4/5) ∧
    (0 < o.temperature → (inference.effectiveSampling (some o)).temperature = o.temperature) ∧
    (0 < (inference.effectiveSampling (some o)).temperature) ∧
    (llama.sampleFilters (inference.effectiveSampling (some o)).temperature
        (inference.effectiveSampling (some o)).topP
        (inference.effectiveSampling (some o)).topK =
      { tempScaled := true,
        nucleus := decide ((inference.effectiveSampling (some o)).topP < 1),
        topKCut := true }) ∧
    (∀ (temp topP : ℚ) (topK : Int), temp ≤ 0 →
      llama.sampleFilters temp topP topK = llama.noFilters) := by
  have htemp : 0 < (inference.effectiveSampling (some o)).temperature := by
    unfold inference.effectiveSampling
    dsimp only
    by_cases h : 0 < o.temperature
    · rw [if_pos h]; exact h
    · rw [if_neg h]; norm_num
  have htopk : 0 < (inference.effectiveSampling (some o)).topK := by
    unfold inference.effectiveSampling
    dsimp only
    by_cases h : 0 < o.topK
    · rw [if_pos h]; exact h
    · rw [if_neg h]; norm_num
  refine ⟨rfl, ?_, ?_, htemp, ?_, ?_⟩
  · intro hle
    unfold inference.effectiveSampling
    dsimp only
    rw [if_neg (by exact not_lt.mpr hle)]
  · intro hpos
    unfold inference.effectiveSampling
    dsimp only
    rw [if_pos hpos]
  · unfold llama.sampleFilters
    rw [if_pos htemp]
    have : decide (0 < (inference.effectiveSampling (some o)).topK) = true :=
      decide_eq_true htopk
    simp [this]
  · intro temp topP topK hle
    unfold llama.sampleFilters llama.noFilters
    rw [if_neg (not_lt.mpr hle)]

/-- Witness for the amended C5 theorem: at the explicit-zero options the
default 0.8 is substituted, and the wrapper at a non-positive
temperature applies no filters. -/
theorem sampling_defaults_and_filters_witness :
    inference.zeroTempOptions.temperature ≤ 0 ∧
    (inference.effectiveSampling (some inference.zeroTempOptions)).temperature = 4/5 ∧
    llama.sampleFilters 0 (19/20) 40 = llama.noFilters :=
  ⟨by norm_num [inference.zeroTempOptions],
    (sampling_defaults_and_filters inference.zeroTempOptions).2.1
      (by norm_num [inference.zeroTempOptions]),
    (sampling_defaults_and_filters inference.zeroTempOptions).2.2.2.2.2 0 (19/20) 40 le_rfl⟩

/-- Helper: every fallback-table selection is a non-empty string. -/
theorem simFallbacks_getD_ne_empty (n : Nat) :
    inference.simFallbacks.getD (n % inference.simFallbacks.length) "" ≠ "" := by
  have hcases : n % inference.simFallbacks.length = 0 ∨
      n % inference.simFallbacks.length = 1 ∨
      n % inference.simFallbacks.length = 2 ∨
      n % inference.simFallbacks.length = 3 := by
    have hlen : inference.simFallbacks.length = 4 := rfl
    rw [hlen]
    omega
  rcases hcases with h | h | h | h <;> rw [h] <;> decide

set_option maxHeartbeats 2000000 in
/-- Helper: `simulateResponse` returns a non-empty string on every
prompt (each branch is a fixed non-empty literal). -/
theorem simulateResponse_ne_empty (prompt : String) :
    inference.simulateResponse prompt ≠ "" := by
  unfold inference.simulateResponse
  dsimp only
  split_ifs <;> first | exact simFallbacks_getD_ne_empty _ | decide

/-- Helper: the stream loop emits the word list as its fragment
texts. -/
theorem streamLoop_map_response (m : String) (total : Nat) :
    ∀ (i : Nat) (ws : List String),
      (inference.streamLoop m total i ws).map (fun f => f.response) = ws := by
  intro i ws
  induction ws generalizing i with
  | nil => rfl
  | cons w rest ih => simp [inference.streamLoop, ih]

/-- Helper: the stream loop emits one fragment per word. -/
theorem streamLoop_length (m : String) (total : Nat) (i : Nat) (ws : List String) :
    (inference.streamLoop m total i ws).length = ws.length := by
  have h := congrArg List.length (streamLoop_map_response m total i ws)
  simpa using h

/-- Helper: the done flags of the stream loop are false everywhere but the
final fragment. -/
theorem streamLoop_map_done (m : String) (total : Nat) :
    ∀ (i : Nat) (ws : List String), ws ≠ [] → i + ws.length = total →
      (inference.streamLoop m total i ws).map (fun f => f.done) =
        List.replicate (ws.length - 1) false ++ [true] := by
  intro i ws
  induction ws generalizing i with
  | nil => intro h _; exact absurd rfl h
  | cons w rest ih =>
    intro _ htot
    cases rest with
    | nil =>
      have hi : i = total - 1 := by
        simp at htot
        omega
      simp [inference.streamLoop, hi]
    | cons w2 rest2 =>
      have hne : ¬ (i = total - 1) := by
        simp [List.length] at htot
        omega
      have hrec := ih (i + 1) (by simp) (by simp [List.length] at htot ⊢; omega)
      have hstep : inference.streamLoop m total i (w :: w2 :: rest2) =
          { model := m, response := w, done := decide (i = total - 1) } ::
            inference.streamLoop m total (i + 1) (w2 :: rest2) := rfl
      rw [hstep, List.map_cons, hrec]
      have hd : decide (i = total - 1) = false := by simp [hne]
      rw [hd]
      simp [List.replicate_succ]

/-- C6: for every engine state in which the requested model is resident,
the streaming call produces the fragment sequence whose texts
concatenate, in order, to exactly the response text of the
non-streaming call, and done = true on precisely the final fragment. -/
theorem streaming_matches_generate (e : inference.SimulatedEngine)
    (req : types.GenerateRequest)
    (h : inference.SimIsModelLoaded e req.model = true) :
    ∃ frags resp,
      inference.SimStreamFragments e req = .ok frags ∧
      inference.SimGenerate e req = .ok resp ∧
      String.join (frags.map (fun f => f.response)) = resp.response ∧
      frags.map (fun f => f.done) = List.replicate (frags.length - 1) false ++ [true] := by
  refine ⟨inference.streamLoop req.model
      (splitIntoWords (inference.simulateResponse req.prompt)).length 0
      (splitIntoWords (inference.simulateResponse req.prompt)),
    { model := req.model, response := inference.simulateResponse req.prompt, done := true },
    ?_, ?_, ?_, ?_⟩
  · unfold inference.SimStreamFragments
    rw [h]
    simp
  · unfold inference.SimGenerate
    rw [h]
    simp
  · rw [streamLoop_map_response, join_splitIntoWords]
  · have hw : splitIntoWords (inference.simulateResponse req.prompt) ≠ [] :=
      splitIntoWords_ne_nil _ (simulateResponse_ne_empty req.prompt)
    rw [streamLoop_map_done _ _ 0 _ hw (by simp), streamLoop_length]

/-- Witness for the C6 theorem at a concrete engine and request. -/
theorem streaming_matches_generate_witness :
    inference.SimIsModelLoaded inference.c6Engine inference.c6Request.model = true ∧
    ∃ frags resp,
      inference.SimStreamFragments inference.c6Engine inference.c6Request = .ok frags ∧
      inference.SimGenerate inference.c6Engine inference.c6Request = .ok resp ∧
      String.join (frags.map (fun f => f.response)) = resp.response ∧
      frags.map (fun f => f.done) = List.replicate (frags.length - 1) false ++ [true] :=
  ⟨rfl, streaming_matches_generate inference.c6Engine inference.c6Request rfl⟩

/-- C1 (the code at the failing input): the token loop of
`LlamaCppEngine.Generate` always runs the full `maxTokens` iterations —
the stop-string check never terminates it — so with stop = ["STOP"],
four requested tokens and a backend whose first two tokens already
detokenize to text containing "STOP", the returned result is "aSTOPaa":
two tokens strictly beyond the stop point are still generated and
included. -/
theorem generate_ignores_stop_strings :
    (∀ (be : inference.Backend) (stops : List String) (maxT : Nat) (acc : List Int),
      (inference.genLoop be stops maxT acc).length = acc.length + maxT) ∧
    strContains (inference.stopBackend.detok [0, 1]) "STOP" = true ∧
    inference.LlamaGenerate inference.stopBackend inference.stopRequest =
      { model := "m", response := "aSTOPaa", done := true } := by
  refine ⟨?_, rfl, rfl⟩
  intro be stops maxT
  induction maxT with
  | zero => intro acc; simp [inference.genLoop]
  | succ n ih =>
    intro acc
    simp only [inference.genLoop, inference.ignoreStop]
    rw [ih]
    simp
    omega

end Colossus
